import Mathlib

/-!
Shallow embedding of the exponential-smoothing library
(`src/exp-smoothing.ts`, `src/errors.ts`) and proofs about it.

Modelling conventions:
* JavaScript numbers are modelled as exact rationals `ℚ`.
* A numeric parameter that may be `NaN` is modelled as `Option ℚ`
  (`none` = NaN), so the source's `isNaN(x)` check becomes a match on `none`.
* An array argument that may be `null`/`undefined` is modelled as
  `Option (List ℚ)` (`none` = absent).
* A JavaScript array slot read out of range yields `undefined`; where that can
  actually reach the output (only in `expSmooth` on empty data) the output
  element type is `JSVal`, which has an explicit `undef` constructor.
* `seasonLength` and `numPredictions` are modelled as natural numbers, per the
  documented contract (positive season length, non-negative prediction count).
-/

/-- A JavaScript array slot: either a number or `undefined`. -/
inductive JSVal where
  | num (q : ℚ)
  | undef
deriving DecidableEq, Repr

/-- JS array read `xs[i]`: the element when in range, `undefined` otherwise. -/
def jsRead (xs : List ℚ) (i : ℕ) : JSVal :=
  match xs.get? i with
  | some v => JSVal.num v
  | none => JSVal.undef

/-- Numeric value stored at slot `i` of a `JSVal` list (0 when absent or
`undefined`); used only to state properties, not in the embedding itself. -/
def valAt (l : List JSVal) (i : ℕ) : ℚ :=
  match l.get? i with
  | some (JSVal.num q) => q
  | _ => 0

/-- The value `smoothed[i]` produced by the loop of `expSmooth`
(`smoothed[0] = 0`, `smoothed[1] = data[0]`,
`smoothed[i] = alpha*data[i-1] + (1-alpha)*smoothed[i-1]` for `i ≥ 2`).
All `data` reads performed by the source in the surviving cases are in range,
so the `getD` default is never consulted for `i < data.length`. -/
def expSmoothVal (d : List ℚ) (a : ℚ) : ℕ → ℚ
  | 0 => 0
  | 1 => d.getD 0 0
  | i + 2 => a * d.getD (i + 1) 0 + (1 - a) * expSmoothVal d a (i + 1)

/-- Slot `i` of the array built by `expSmooth`: slot 1 is the literal JS read
`data[0]` (which is `undefined` when `data` is empty), every other slot holds
the loop value. -/
def expSmoothEntry (d : List ℚ) (a : ℚ) (i : ℕ) : JSVal :=
  if i = 1 then jsRead d 0 else JSVal.num (expSmoothVal d a i)

/-- `expSmooth(data, alpha)` from `src/exp-smoothing.ts`.
The source writes `smoothed[0]` and `smoothed[1]` unconditionally and then
loops `i = 2 .. n-1`, so the resulting array always has length
`max data.length 2` (length 2 with an `undefined` slot when `data` is empty,
because only `data.length === 1` is rejected). -/
def expSmooth (data : Option (List ℚ)) (alpha : Option ℚ) : List JSVal :=
  match data with
  | none => []
  | some d =>
    if d.length = 1 then []
    else
      match alpha with
      | none => []
      | some a =>
        if a ≤ 0 ∨ 1 ≤ a then []
        else (List.range (max d.length 2)).map (expSmoothEntry d a)

/-- The pair `(smoothed[i], b[i])` maintained by `doubleExpSmooth`:
`smoothed[0]=0, b[0]=0, smoothed[1]=data[0], b[1]=data[1]-data[0]`, then for
`i ≥ 2`: `smoothed[i] = alpha*data[i] + (1-alpha)*(smoothed[i-1]+b[i-1])` and
`b[i] = gamma*(smoothed[i]-smoothed[i-1]) + (1-gamma)*b[i-1]`. -/
def desVal (d : List ℚ) (a g : ℚ) : ℕ → ℚ × ℚ
  | 0 => (0, 0)
  | 1 => (d.getD 0 0, d.getD 1 0 - d.getD 0 0)
  | i + 2 =>
    let p := desVal d a g (i + 1)
    let s := a * d.getD (i + 2) 0 + (1 - a) * (p.1 + p.2)
    (s, g * (s - p.1) + (1 - g) * p.2)

/-- `doubleExpSmooth(data, alpha, gamma)` from `src/exp-smoothing.ts`.
Note the inclusive parameter bounds (`alpha < 0 || alpha > 1` rejected) and
the `data.length < 2` guard, both unlike `expSmooth`. After validation every
array read is in range, so the result is a plain list of numbers. -/
def doubleExpSmooth (data : Option (List ℚ)) (alpha gamma : Option ℚ) : List ℚ :=
  match data with
  | none => []
  | some d =>
    if d.length < 2 then []
    else
      match alpha with
      | none => []
      | some a =>
        if a < 0 ∨ 1 < a then []
        else
          match gamma with
          | none => []
          | some g =>
            if g < 0 ∨ 1 < g then []
            else (List.range d.length).map (fun i => (desVal d a g i).1)

/-- `sumSqError(predictions, actual)` from `src/errors.ts`: `-1` when either
array is absent or empty or the lengths differ, otherwise the sum of squared
element-wise differences. -/
def sumSqError (predictions actual : Option (List ℚ)) : ℚ :=
  match predictions with
  | none => -1
  | some p =>
    if p.length = 0 then -1
    else
      match actual with
      | none => -1
      | some a =>
        if a.length = 0 then -1
        else if p.length ≠ a.length then -1
        else (List.zipWith (fun x y => (x - y) * (x - y)) p a).sum

/-- `mse(predictions, actual)` from `src/errors.ts`: re-validates exactly like
`sumSqError`, then returns `sumSqError(predictions, actual) / n`. -/
def mse (predictions actual : Option (List ℚ)) : ℚ :=
  match predictions with
  | none => -1
  | some p =>
    if p.length = 0 then -1
    else
      match actual with
      | none => -1
      | some a =>
        if a.length = 0 then -1
        else if p.length ≠ a.length then -1
        else sumSqError predictions actual / (p.length : ℚ)

/-- Phase A of Holt-Winters: the initial trend
`(Σ_{i<seasonLength} (data[i+seasonLength] - data[i]) / seasonLength) / seasonLength`. -/
def initialTrend (d : List ℚ) (L : ℕ) : ℚ :=
  (((List.range L).map fun i => (d.getD (i + L) 0 - d.getD i 0) / (L : ℚ)).sum) / (L : ℚ)

/-- Phase B of Holt-Winters, first half: the mean of each of the
`numSeasons = ⌊n / seasonLength⌋` complete seasons. -/
def seasonAverages (d : List ℚ) (L : ℕ) : List ℚ :=
  (List.range (d.length / L)).map fun j =>
    (((List.range L).map fun i => d.getD (L * j + i) 0).sum) / (L : ℚ)

/-- Phase B of Holt-Winters, second half: the initial seasonal index for each
offset `i < seasonLength`, namely the mean over the complete seasons `j` of
`data[seasonLength*j + i] - seasonAverages[j]`. -/
def initialSeasonals (d : List ℚ) (L : ℕ) : List ℚ :=
  (List.range L).map fun i =>
    (((List.range (d.length / L)).map fun j =>
        d.getD (L * j + i) 0 - (seasonAverages d L).getD j 0).sum) / ((d.length / L : ℕ) : ℚ)

/-- The scalar/array state threaded through the main loop of `holtWinters`,
together with the output array built so far. -/
structure HWState where
  smooth : ℚ
  trend : ℚ
  seasonals : List ℚ
  out : List ℚ
deriving DecidableEq, Repr

/-- One iteration `i` of the main loop of `holtWinters`: initialise at
`i = 0`, forecast (without touching the state) for `i ≥ n`, otherwise run the
level/trend/seasonal recurrence and emit `smooth + trend + seasonals[i % L]`
(the freshly assigned seasonal). -/
def hwStep (d : List ℚ) (a b g : ℚ) (L n : ℕ) (s : HWState) (i : ℕ) : HWState :=
  if i = 0 then
    { s with smooth := d.getD 0 0, out := s.out ++ [d.getD 0 0] }
  else if n ≤ i then
    let m : ℚ := (i : ℚ) - (n : ℚ) + 1
    { s with out := s.out ++ [(s.smooth + m * s.trend) + s.seasonals.getD (i % L) 0] }
  else
    let lastSmooth := s.smooth
    let val := d.getD i 0
    let smooth := a * (val - s.seasonals.getD (i % L) 0) + (1 - a) * (s.smooth + s.trend)
    let trend := b * (smooth - lastSmooth) + (1 - b) * s.trend
    let seasonals :=
      s.seasonals.set (i % L) (g * (val - smooth) + (1 - g) * s.seasonals.getD (i % L) 0)
    { smooth := smooth, trend := trend, seasonals := seasonals,
      out := s.out ++ [smooth + trend + seasonals.getD (i % L) 0] }

/-- State entering the main loop of `holtWinters`: level uninitialised (the
source leaves `smooth` undefined until `i = 0`; we pick 0, which is never
read before being overwritten), trend from Phase A, seasonals from Phase B. -/
def hwInit (d : List ℚ) (L : ℕ) : HWState :=
  { smooth := 0, trend := initialTrend d L, seasonals := initialSeasonals d L, out := [] }

/-- The state after the first `k` iterations of the main loop of
`holtWinters` (the full run takes `k = n + numPredictions`). -/
def hwRun (d : List ℚ) (a b g : ℚ) (L n k : ℕ) : HWState :=
  (List.range k).foldl (hwStep d a b g L n) (hwInit d L)

/-- `holtWinters(data, alpha, beta, gamma, seasonLength, numPredictions)` from
`src/exp-smoothing.ts`: validate, then run the three phases and return the
single interleaved output array. -/
def holtWinters (data : Option (List ℚ)) (alpha beta gamma : Option ℚ)
    (seasonLength numPredictions : ℕ) : List ℚ :=
  match data with
  | none => []
  | some d =>
    if d.length < 3 then []
    else
      match alpha with
      | none => []
      | some a =>
        if a < 0 ∨ 1 < a then []
        else
          match beta with
          | none => []
          | some b =>
            if b < 0 ∨ 1 < b then []
            else
              match gamma with
              | none => []
              | some g =>
                if g < 0 ∨ 1 < g then []
                else
                  (hwRun d a b g seasonLength d.length
                    (d.length + numPredictions)).out

/-- The result record of `holtWintersPartitioned`. -/
structure HWPartition where
  smoothed : List ℚ
  predictions : List ℚ
deriving DecidableEq, Repr

/-- The `EMPTY_PARTITION` sentinel from `src/exp-smoothing.ts` (as a value;
the source shares one object by reference across calls). -/
def EMPTY_PARTITION : HWPartition := { smoothed := [], predictions := [] }

/-- State threaded through the main loop of `holtWintersPartitioned`: same
scalar/array state as `holtWinters`, but two output arrays. -/
structure HWPState where
  smooth : ℚ
  trend : ℚ
  seasonals : List ℚ
  smoothed : List ℚ
  predictions : List ℚ
deriving DecidableEq, Repr

/-- One iteration `i` of the main loop of `holtWintersPartitioned`: identical
to `hwStep` except that in-sample values are pushed onto `smoothed` and
forecasts onto `predictions`. -/
def hwpStep (d : List ℚ) (a b g : ℚ) (L n : ℕ) (s : HWPState) (i : ℕ) : HWPState :=
  if i = 0 then
    { s with smooth := d.getD 0 0, smoothed := s.smoothed ++ [d.getD 0 0] }
  else if n ≤ i then
    let m : ℚ := (i : ℚ) - (n : ℚ) + 1
    { s with predictions :=
        s.predictions ++ [(s.smooth + m * s.trend) + s.seasonals.getD (i % L) 0] }
  else
    let lastSmooth := s.smooth
    let val := d.getD i 0
    let smooth := a * (val - s.seasonals.getD (i % L) 0) + (1 - a) * (s.smooth + s.trend)
    let trend := b * (smooth - lastSmooth) + (1 - b) * s.trend
    let seasonals :=
      s.seasonals.set (i % L) (g * (val - smooth) + (1 - g) * s.seasonals.getD (i % L) 0)
    { smooth := smooth, trend := trend, seasonals := seasonals,
      smoothed := s.smoothed ++ [smooth + trend + seasonals.getD (i % L) 0],
      predictions := s.predictions }

/-- Loop-entry state of `holtWintersPartitioned`. -/
def hwpInit (d : List ℚ) (L : ℕ) : HWPState :=
  { smooth := 0, trend := initialTrend d L, seasonals := initialSeasonals d L,
    smoothed := [], predictions := [] }

/-- The state after the first `k` iterations of the main loop of
`holtWintersPartitioned`. -/
def hwpRun (d : List ℚ) (a b g : ℚ) (L n k : ℕ) : HWPState :=
  (List.range k).foldl (hwpStep d a b g L n) (hwpInit d L)

/-- `holtWintersPartitioned(...)` from `src/exp-smoothing.ts`: same
validation (returning `EMPTY_PARTITION`) and same three phases as
`holtWinters`, with the output split into `{smoothed, predictions}`. -/
def holtWintersPartitioned (data : Option (List ℚ)) (alpha beta gamma : Option ℚ)
    (seasonLength numPredictions : ℕ) : HWPartition :=
  match data with
  | none => EMPTY_PARTITION
  | some d =>
    if d.length < 3 then EMPTY_PARTITION
    else
      match alpha with
      | none => EMPTY_PARTITION
      | some a =>
        if a < 0 ∨ 1 < a then EMPTY_PARTITION
        else
          match beta with
          | none => EMPTY_PARTITION
          | some b =>
            if b < 0 ∨ 1 < b then EMPTY_PARTITION
            else
              match gamma with
              | none => EMPTY_PARTITION
              | some g =>
                if g < 0 ∨ 1 < g then EMPTY_PARTITION
                else
                  let st := hwpRun d a b g seasonLength d.length
                    (d.length + numPredictions)
                  { smoothed := st.smoothed, predictions := st.predictions }

/-- The shared validation-failure condition of the error metrics: a sequence
is absent or empty, or the lengths differ. -/
def errInvalid (p a : Option (List ℚ)) : Prop :=
  p = none ∨ a = none ∨ p = some [] ∨ a = some [] ∨
    ∃ lp la, p = some lp ∧ a = some la ∧ lp.length ≠ la.length

/-- The loop states of the combined and the partitioned Holt-Winters runs
agree: same level, trend and seasonal array, and the combined output is the
concatenation of the partitioned outputs. -/
def hwRel (sc : HWState) (sp : HWPState) : Prop :=
  sc.smooth = sp.smooth ∧ sc.trend = sp.trend ∧ sc.seasonals = sp.seasonals ∧
    sc.out = sp.smoothed ++ sp.predictions

/-- A smoothing parameter fails the Holt-Winters validation: it is NaN
(modelled as none) or lies outside [0,1]. -/
def paramInvalid : Option ℚ → Prop
  | none => True
  | some q => q < 0 ∨ 1 < q

/-- The full Holt-Winters rejection condition: absent data, fewer than 3
samples, or an invalid alpha/beta/gamma. Neither seasonLength nor
numPredictions appears. -/
def hwInvalid (data : Option (List ℚ)) (alpha beta gamma : Option ℚ) : Prop :=
  data = none ∨ (∃ d, data = some d ∧ d.length < 3) ∨
    paramInvalid alpha ∨ paramInvalid beta ∨ paramInvalid gamma

/-! ### Helper lemmas -/

lemma zip_sq_diff_comm : ∀ p a : List ℚ,
    (List.zipWith (fun x y => (x - y) * (x - y)) p a).sum
      = (List.zipWith (fun x y => (x - y) * (x - y)) a p).sum := by
  intro p
  induction p with
  | nil => intro a; cases a <;> simp
  | cons x xs ih =>
    intro a
    cases a with
    | nil => simp
    | cons y ys =>
      simp only [List.zipWith_cons_cons, List.sum_cons, ih ys]
      ring_nf

lemma zip_sq_diff_nonneg : ∀ p a : List ℚ,
    0 ≤ (List.zipWith (fun x y => (x - y) * (x - y)) p a).sum := by
  intro p
  induction p with
  | nil => intro a; simp
  | cons x xs ih =>
    intro a
    cases a with
    | nil => simp
    | cons y ys =>
      simp only [List.zipWith_cons_cons, List.sum_cons]
      have h1 := mul_self_nonneg (x - y)
      have h2 := ih ys
      linarith

lemma zip_sq_diff_eq_range_sum : ∀ p a : List ℚ, p.length = a.length →
    (List.zipWith (fun x y => (x - y) * (x - y)) p a).sum
      = ((List.range p.length).map fun i =>
          (p.getD i 0 - a.getD i 0) * (p.getD i 0 - a.getD i 0)).sum := by
  intro p
  induction p with
  | nil => intro a _; simp
  | cons x xs ih =>
    intro a hlen
    cases a with
    | nil => simp at hlen
    | cons y ys =>
      simp only [List.zipWith_cons_cons, List.sum_cons, List.length_cons,
        List.range_succ_eq_map, List.map_cons, List.map_map, List.getD_cons_zero]
      have hys : xs.length = ys.length := by simpa using hlen
      rw [ih ys hys]
      congr 1

/-! ### C1: behaviour of expSmooth on empty data -/

/-- C1 (code bug evaluation): for empty data and the in-range alpha `1/2`,
`expSmooth` does not return the empty sequence; because only
`data.length === 1` is rejected, the source writes `smoothed[0] = 0` and
`smoothed[1] = data[0] = undefined` and returns that two-element array. -/
theorem expSmooth_empty_data_result :
    expSmooth (some []) (some (1/2)) = [JSVal.num 0, JSVal.undef] := by
  simp [expSmooth, expSmoothEntry, jsRead, expSmoothVal, List.range_succ]
  norm_num

/-! ### C4: the Phase A initial trend -/

/-- C4: for valid input with two full seasons available, the initial trend
entering the Holt-Winters main loop equals
`(1/seasonLength) * Σ_{i<seasonLength} (data[i+seasonLength] - data[i]) / seasonLength`:
each one-season-ahead delta is divided by `seasonLength`, and the sum is
divided by `seasonLength` once more. -/
theorem holtWinters_initialTrend_eq (d : List ℚ) (L : ℕ)
    (hL : 1 ≤ L) (hn : 2 * L ≤ d.length) :
    (hwInit d L).trend =
      (1 / (L : ℚ)) *
        ((List.range L).map fun i => (d.getD (i + L) 0 - d.getD i 0) / (L : ℚ)).sum := by
  show initialTrend d L = _
  rw [one_div, inv_mul_eq_div]
  rfl

/-- Witness for C4 at `data = [1,2,3,4,5,6]`, `seasonLength = 2`. -/
theorem holtWinters_initialTrend_eq_witness :
    (1 ≤ 2 ∧ 2 * 2 ≤ ([1, 2, 3, 4, 5, 6] : List ℚ).length) ∧
    (hwInit [1, 2, 3, 4, 5, 6] 2).trend =
      (1 / (2 : ℚ)) *
        ((List.range 2).map fun i =>
          (([1, 2, 3, 4, 5, 6] : List ℚ).getD (i + 2) 0 -
            ([1, 2, 3, 4, 5, 6] : List ℚ).getD i 0) / (2 : ℚ)).sum :=
  ⟨⟨by decide, by decide⟩,
    holtWinters_initialTrend_eq [1, 2, 3, 4, 5, 6] 2 (by decide) (by decide)⟩

/-! ### C10: symmetry of sumSqError -/

/-- C10: `sumSqError` is symmetric in its two arguments, on valid and invalid
inputs alike: the validation checks are mirrored and the squared difference is
unchanged by swapping the operands. -/
theorem sumSqError_comm (p a : Option (List ℚ)) : sumSqError p a = sumSqError a p := by
  cases p with
  | none =>
    cases a with
    | none => rfl
    | some la =>
      show (-1 : ℚ) = _
      unfold sumSqError
      dsimp only
      split <;> rfl
  | some lp =>
    cases a with
    | none =>
      show _ = (-1 : ℚ)
      unfold sumSqError
      dsimp only
      split <;> rfl
    | some la =>
      unfold sumSqError
      dsimp only
      split_ifs <;> first | rfl | omega | exact zip_sq_diff_comm lp la

/-! ### C7: inclusive bounds for double smoothing vs exclusive for single -/

/-- C7: on any data of length at least 2, `doubleExpSmooth` accepts the
boundary parameter values 0 and 1 (inclusive bounds) and returns a non-empty
result, while `expSmooth` with the same boundary alpha returns the empty
sequence (exclusive bounds). -/
theorem doubleExpSmooth_boundary_vs_expSmooth (d : List ℚ) (a g : ℚ)
    (hd : 2 ≤ d.length) (ha : a = 0 ∨ a = 1) (hg : g = 0 ∨ g = 1) :
    doubleExpSmooth (some d) (some a) (some g) ≠ [] ∧
    expSmooth (some d) (some a) = [] := by
  constructor
  · unfold doubleExpSmooth
    dsimp only
    rw [if_neg (show ¬ d.length < 2 by omega),
      if_neg (show ¬(a < 0 ∨ 1 < a) by rcases ha with rfl | rfl <;> norm_num),
      if_neg (show ¬(g < 0 ∨ 1 < g) by rcases hg with rfl | rfl <;> norm_num)]
    have hpos :
        0 < (List.map (fun i => (desVal d a g i).1) (List.range d.length)).length := by
      simp
      omega
    exact List.length_pos.mp hpos
  · unfold expSmooth
    dsimp only
    rw [if_neg (show ¬ d.length = 1 by omega),
      if_pos (show a ≤ 0 ∨ 1 ≤ a by rcases ha with rfl | rfl <;> norm_num)]

/-- Witness for C7 at `data = [1,2]`, `alpha = 0`, `gamma = 1`. -/
theorem doubleExpSmooth_boundary_vs_expSmooth_witness :
    (2 ≤ ([1, 2] : List ℚ).length ∧ ((0 : ℚ) = 0 ∨ (0 : ℚ) = 1) ∧
      ((1 : ℚ) = 0 ∨ (1 : ℚ) = 1)) ∧
    (doubleExpSmooth (some [1, 2]) (some 0) (some 1) ≠ [] ∧
      expSmooth (some [1, 2]) (some 0) = []) :=
  ⟨⟨by decide, Or.inl rfl, Or.inr rfl⟩,
    doubleExpSmooth_boundary_vs_expSmooth [1, 2] 0 1 (by decide)
      (Or.inl rfl) (Or.inr rfl)⟩

lemma expSmoothEntry_eq_val (d : List ℚ) (a : ℚ) (hd : 1 ≤ d.length) :
    ∀ i, expSmoothEntry d a i = JSVal.num (expSmoothVal d a i) := by
  intro i
  unfold expSmoothEntry
  by_cases h : i = 1
  · subst h
    rw [if_pos rfl]
    cases d with
    | nil => simp at hd
    | cons x xs => rfl
  · rw [if_neg h]

lemma expSmooth_valid_eq (d : List ℚ) (a : ℚ) (hd : 2 ≤ d.length) (h0 : 0 < a) (h1 : a < 1) :
    expSmooth (some d) (some a) = (List.range d.length).map (expSmoothEntry d a) := by
  unfold expSmooth
  dsimp only
  rw [if_neg (show ¬ d.length = 1 by omega),
    if_neg (show ¬(a ≤ 0 ∨ 1 ≤ a) by push_neg; exact ⟨h0, h1⟩),
    max_eq_left hd]

lemma expSmooth_valid_get (d : List ℚ) (a : ℚ) (hd : 2 ≤ d.length) (h0 : 0 < a) (h1 : a < 1)
    (i : ℕ) (hi : i < d.length) :
    (expSmooth (some d) (some a)).get? i = some (JSVal.num (expSmoothVal d a i)) := by
  rw [expSmooth_valid_eq d a hd h0 h1, List.get?_map, List.get?_range hi]
  simp only [Option.map_some']
  rw [expSmoothEntry_eq_val d a (by omega) i]

lemma expSmooth_valid_valAt (d : List ℚ) (a : ℚ) (hd : 2 ≤ d.length) (h0 : 0 < a) (h1 : a < 1)
    (i : ℕ) (hi : i < d.length) :
    valAt (expSmooth (some d) (some a)) i = expSmoothVal d a i := by
  unfold valAt
  rw [expSmooth_valid_get d a hd h0 h1 i hi]

/-! ### C5: the expSmooth recurrence -/

/-- C5: for data of length n at least 2 and alpha strictly inside (0,1),
the output of expSmooth has length n, element 0 is 0, element 1 is data[0],
and element i (2 le i < n) is alpha*data[i-1] + (1-alpha)*smoothed[i-1]:
the recurrence reads data[i-1], not data[i]. -/
theorem expSmooth_valid_spec (d : List ℚ) (a : ℚ)
    (hd : 2 ≤ d.length) (h0 : 0 < a) (h1 : a < 1) :
    (expSmooth (some d) (some a)).length = d.length ∧
    (expSmooth (some d) (some a)).get? 0 = some (JSVal.num 0) ∧
    (expSmooth (some d) (some a)).get? 1 = some (JSVal.num (d.getD 0 0)) ∧
    ∀ i, 2 ≤ i → i < d.length →
      (expSmooth (some d) (some a)).get? i =
        some (JSVal.num (a * d.getD (i - 1) 0 +
          (1 - a) * valAt (expSmooth (some d) (some a)) (i - 1))) := by
  refine ⟨?_, ?_, ?_, ?_⟩
  · rw [expSmooth_valid_eq d a hd h0 h1]
    simp
  · rw [expSmooth_valid_get d a hd h0 h1 0 (by omega)]
    rfl
  · rw [expSmooth_valid_get d a hd h0 h1 1 (by omega)]
    rfl
  · intro i h2 hi
    obtain ⟨j, rfl⟩ : ∃ j, i = j + 2 := ⟨i - 2, by omega⟩
    rw [expSmooth_valid_get d a hd h0 h1 (j + 2) hi]
    simp only [show j + 2 - 1 = j + 1 from rfl]
    rw [expSmooth_valid_valAt d a hd h0 h1 (j + 1) (by omega)]
    rfl

lemma sumSqError_valid_eq (lp la : List ℚ) (hp : lp.length ≠ 0) (ha : la.length ≠ 0)
    (hl : lp.length = la.length) :
    sumSqError (some lp) (some la) =
      (List.zipWith (fun x y => (x - y) * (x - y)) lp la).sum := by
  unfold sumSqError
  dsimp only
  rw [if_neg hp, if_neg ha, if_neg (not_ne_iff.mpr hl)]

lemma mse_valid_eq (lp la : List ℚ) (hp : lp.length ≠ 0) (ha : la.length ≠ 0)
    (hl : lp.length = la.length) :
    mse (some lp) (some la) = sumSqError (some lp) (some la) / (lp.length : ℚ) := by
  unfold mse
  dsimp only
  rw [if_neg hp, if_neg ha, if_neg (not_ne_iff.mpr hl)]

/-! ### C9: error-metric sentinel and formulas -/

/-- C9: sumSqError and mse return -1 exactly when a sequence is absent or
empty or the lengths differ; on valid input sumSqError is the sum of squared
differences and mse divides it by the common length. -/
theorem sumSqError_mse_sentinel_spec (p a : Option (List ℚ)) :
    (sumSqError p a = -1 ↔ errInvalid p a) ∧
    (mse p a = -1 ↔ errInvalid p a) ∧
    ∀ lp la : List ℚ, p = some lp → a = some la → lp ≠ [] → la ≠ [] →
      lp.length = la.length →
      sumSqError p a = ((List.range lp.length).map fun i =>
          (lp.getD i 0 - la.getD i 0) * (lp.getD i 0 - la.getD i 0)).sum ∧
      mse p a = sumSqError p a / (lp.length : ℚ) := by
  cases p with
  | none =>
    refine ⟨⟨fun _ => Or.inl rfl, fun _ => rfl⟩,
            ⟨fun _ => Or.inl rfl, fun _ => rfl⟩, ?_⟩
    intro lp la hp
    exact absurd hp (by simp)
  | some lp0 =>
    cases a with
    | none =>
      have hs : sumSqError (some lp0) none = -1 := by
        unfold sumSqError; dsimp only; split <;> rfl
      have hm : mse (some lp0) none = -1 := by
        unfold mse; dsimp only; split <;> rfl
      refine ⟨⟨fun _ => Or.inr (Or.inl rfl), fun _ => hs⟩,
              ⟨fun _ => Or.inr (Or.inl rfl), fun _ => hm⟩, ?_⟩
      intro lp la _ ha
      exact absurd ha (by simp)
    | some la0 =>
      by_cases hp0 : lp0.length = 0
      · have hlp : lp0 = [] := List.length_eq_zero.mp hp0
        subst hlp
        have hs : sumSqError (some ([] : List ℚ)) (some la0) = -1 := by
          unfold sumSqError; dsimp only
          rw [if_pos (show ([] : List ℚ).length = 0 from rfl)]
        have hm : mse (some ([] : List ℚ)) (some la0) = -1 := by
          unfold mse; dsimp only
          rw [if_pos (show ([] : List ℚ).length = 0 from rfl)]
        refine ⟨⟨fun _ => Or.inr (Or.inr (Or.inl rfl)), fun _ => hs⟩,
                ⟨fun _ => Or.inr (Or.inr (Or.inl rfl)), fun _ => hm⟩, ?_⟩
        intro lp la h1 h2 hne1 hne2 hl
        cases h1
        exact absurd rfl hne1
      · by_cases ha0 : la0.length = 0
        · have hla : la0 = [] := List.length_eq_zero.mp ha0
          subst hla
          have hs : sumSqError (some lp0) (some ([] : List ℚ)) = -1 := by
            unfold sumSqError; dsimp only
            rw [if_neg hp0, if_pos (show ([] : List ℚ).length = 0 from rfl)]
          have hm : mse (some lp0) (some ([] : List ℚ)) = -1 := by
            unfold mse; dsimp only
            rw [if_neg hp0, if_pos (show ([] : List ℚ).length = 0 from rfl)]
          refine ⟨⟨fun _ => Or.inr (Or.inr (Or.inr (Or.inl rfl))), fun _ => hs⟩,
                  ⟨fun _ => Or.inr (Or.inr (Or.inr (Or.inl rfl))), fun _ => hm⟩, ?_⟩
          intro lp la h1 h2 hne1 hne2 hl
          cases h2
          exact absurd rfl hne2
        · by_cases hl : lp0.length = la0.length
          · have hs := sumSqError_valid_eq lp0 la0 hp0 ha0 hl
            have hnn := zip_sq_diff_nonneg lp0 la0
            have hsne : sumSqError (some lp0) (some la0) ≠ -1 := by
              rw [hs]
              intro hcon
              rw [hcon] at hnn
              linarith
            have hm := mse_valid_eq lp0 la0 hp0 ha0 hl
            have hlenpos : (0 : ℚ) < (lp0.length : ℚ) := by
              exact_mod_cast Nat.pos_of_ne_zero hp0
            have hmne : mse (some lp0) (some la0) ≠ -1 := by
              rw [hm, hs]
              have hdiv : (0 : ℚ) ≤
                  (List.zipWith (fun x y => (x - y) * (x - y)) lp0 la0).sum /
                    (lp0.length : ℚ) :=
                div_nonneg hnn (le_of_lt hlenpos)
              intro hcon
              rw [hcon] at hdiv
              linarith
            have hninv : ¬ errInvalid (some lp0) (some la0) := by
              rintro (h | h | h | h | ⟨lp, la, h1, h2, h3⟩)
              · exact absurd h (by simp)
              · exact absurd h (by simp)
              · cases h
                exact hp0 rfl
              · cases h
                exact ha0 rfl
              · cases h1
                cases h2
                exact h3 hl
            refine ⟨⟨fun h => absurd h hsne, fun h => absurd h hninv⟩,
                    ⟨fun h => absurd h hmne, fun h => absurd h hninv⟩, ?_⟩
            intro lp la h1 h2 _ _ _
            cases h1
            cases h2
            exact ⟨by rw [hs, zip_sq_diff_eq_range_sum lp0 la0 hl], hm⟩
          · have hs : sumSqError (some lp0) (some la0) = -1 := by
              unfold sumSqError; dsimp only
              rw [if_neg hp0, if_neg ha0, if_pos hl]
            have hm : mse (some lp0) (some la0) = -1 := by
              unfold mse; dsimp only
              rw [if_neg hp0, if_neg ha0, if_pos hl]
            have hinv : errInvalid (some lp0) (some la0) :=
              Or.inr (Or.inr (Or.inr (Or.inr ⟨lp0, la0, rfl, rfl, hl⟩)))
            refine ⟨⟨fun _ => hinv, fun _ => hs⟩, ⟨fun _ => hinv, fun _ => hm⟩, ?_⟩
            intro lp la h1 h2 _ _ hll
            cases h1
            cases h2
            exact absurd hll hl

/-- Witness for C5 at data = [1,2,3], alpha = 1/2. -/
theorem expSmooth_valid_spec_witness :
    (2 ≤ ([1, 2, 3] : List ℚ).length ∧ (0 : ℚ) < 1/2 ∧ (1 : ℚ)/2 < 1) ∧
    ((expSmooth (some [1, 2, 3]) (some (1/2))).length = ([1, 2, 3] : List ℚ).length ∧
      (expSmooth (some [1, 2, 3]) (some (1/2))).get? 0 = some (JSVal.num 0) ∧
      (expSmooth (some [1, 2, 3]) (some (1/2))).get? 1 =
        some (JSVal.num (([1, 2, 3] : List ℚ).getD 0 0)) ∧
      ∀ i, 2 ≤ i → i < ([1, 2, 3] : List ℚ).length →
        (expSmooth (some [1, 2, 3]) (some (1/2))).get? i =
          some (JSVal.num ((1/2 : ℚ) * ([1, 2, 3] : List ℚ).getD (i - 1) 0 +
            (1 - 1/2) * valAt (expSmooth (some [1, 2, 3]) (some (1/2))) (i - 1)))) :=
  ⟨⟨by decide, by norm_num, by norm_num⟩,
    expSmooth_valid_spec [1, 2, 3] (1/2) (by decide) (by norm_num) (by norm_num)⟩

/-- Witness for C9: an absent second sequence makes sumSqError return -1. -/
theorem sumSqError_mse_sentinel_spec_witness :
    sumSqError (some [(1 : ℚ), 2]) none = -1 :=
  ((sumSqError_mse_sentinel_spec (some [(1 : ℚ), 2]) none).1).mpr
    (Or.inr (Or.inl rfl))

lemma hwRun_succ (d : List ℚ) (a b g : ℚ) (L n k : ℕ) :
    hwRun d a b g L n (k + 1) = hwStep d a b g L n (hwRun d a b g L n k) k := by
  unfold hwRun
  rw [List.range_succ, List.foldl_append]
  rfl

lemma hwpRun_succ (d : List ℚ) (a b g : ℚ) (L n k : ℕ) :
    hwpRun d a b g L n (k + 1) = hwpStep d a b g L n (hwpRun d a b g L n k) k := by
  unfold hwpRun
  rw [List.range_succ, List.foldl_append]
  rfl

lemma hwStep_ge_fields (d : List ℚ) (a b g : ℚ) (L n : ℕ) (s : HWState) (i : ℕ)
    (h0 : i ≠ 0) (hi : n ≤ i) :
    (hwStep d a b g L n s i).smooth = s.smooth ∧
    (hwStep d a b g L n s i).trend = s.trend ∧
    (hwStep d a b g L n s i).seasonals = s.seasonals ∧
    (hwStep d a b g L n s i).out =
      s.out ++
        [(s.smooth + ((i : ℚ) - (n : ℚ) + 1) * s.trend) + s.seasonals.getD (i % L) 0] := by
  unfold hwStep
  rw [if_neg h0, if_pos hi]
  exact ⟨rfl, rfl, rfl, rfl⟩

lemma hwStep_out_snoc (d : List ℚ) (a b g : ℚ) (L n : ℕ) (s : HWState) (i : ℕ) :
    ∃ v, (hwStep d a b g L n s i).out = s.out ++ [v] := by
  unfold hwStep
  by_cases h0 : i = 0
  · rw [if_pos h0]
    exact ⟨_, rfl⟩
  · rw [if_neg h0]
    by_cases hi : n ≤ i
    · rw [if_pos hi]
      exact ⟨_, rfl⟩
    · rw [if_neg hi]
      exact ⟨_, rfl⟩

lemma hwRun_out_length (d : List ℚ) (a b g : ℚ) (L n : ℕ) :
    ∀ k, (hwRun d a b g L n k).out.length = k := by
  intro k
  induction k with
  | zero => rfl
  | succ k ih =>
    rw [hwRun_succ]
    obtain ⟨v, hv⟩ := hwStep_out_snoc d a b g L n (hwRun d a b g L n k) k
    rw [hv, List.length_append, ih]
    rfl

lemma hwRun_state_frozen (d : List ℚ) (a b g : ℚ) (L n : ℕ) (hn : 1 ≤ n) :
    ∀ k, n ≤ k →
      (hwRun d a b g L n k).smooth = (hwRun d a b g L n n).smooth ∧
      (hwRun d a b g L n k).trend = (hwRun d a b g L n n).trend ∧
      (hwRun d a b g L n k).seasonals = (hwRun d a b g L n n).seasonals := by
  intro k
  induction k with
  | zero => intro hk; exact absurd hk (by omega)
  | succ k ih =>
    intro hk
    by_cases hkn : n = k + 1
    · rw [← hkn]
      exact ⟨rfl, rfl, rfl⟩
    · have hk2 : n ≤ k := by omega
      have hs := hwStep_ge_fields d a b g L n (hwRun d a b g L n k) k (by omega) hk2
      have ihh := ih hk2
      rw [hwRun_succ]
      exact ⟨hs.1.trans ihh.1, hs.2.1.trans ihh.2.1, hs.2.2.1.trans ihh.2.2⟩

lemma hwRun_out_get_future (d : List ℚ) (a b g : ℚ) (L n i : ℕ) :
    ∀ k, i < k →
      (hwRun d a b g L n k).out.get? i = (hwRun d a b g L n (i + 1)).out.get? i := by
  intro k
  induction k with
  | zero => intro hik; exact absurd hik (by omega)
  | succ k ih =>
    intro hik
    by_cases h : i < k
    · rw [hwRun_succ]
      obtain ⟨v, hv⟩ := hwStep_out_snoc d a b g L n (hwRun d a b g L n k) k
      rw [hv, List.get?_append (by rw [hwRun_out_length]; exact h)]
      exact ih h
    · have hik2 : i = k := by omega
      subst hik2
      rfl

lemma hwRun_out_get_forecast (d : List ℚ) (a b g : ℚ) (L n : ℕ) (hn : 1 ≤ n)
    (i : ℕ) (hi : n ≤ i) :
    (hwRun d a b g L n (i + 1)).out.get? i =
      some (((hwRun d a b g L n i).smooth +
        ((i : ℚ) - (n : ℚ) + 1) * (hwRun d a b g L n i).trend) +
        (hwRun d a b g L n i).seasonals.getD (i % L) 0) := by
  rw [hwRun_succ]
  have hs := hwStep_ge_fields d a b g L n (hwRun d a b g L n i) i (by omega) hi
  rw [hs.2.2.2]
  have hlen : (hwRun d a b g L n i).out.length = i := hwRun_out_length d a b g L n i
  have hc := List.get?_concat_length (hwRun d a b g L n i).out
    (((hwRun d a b g L n i).smooth +
        ((i : ℚ) - (n : ℚ) + 1) * (hwRun d a b g L n i).trend) +
      (hwRun d a b g L n i).seasonals.getD (i % L) 0)
  rw [hlen] at hc
  exact hc

lemma hwStep_rel_lt (d : List ℚ) (a b g : ℚ) (L n : ℕ) (sc : HWState) (sp : HWPState)
    (i : ℕ) (hi : i < n) (h : hwRel sc sp) (hp : sp.predictions = []) :
    hwRel (hwStep d a b g L n sc i) (hwpStep d a b g L n sp i) ∧
      (hwpStep d a b g L n sp i).predictions = [] := by
  obtain ⟨h1, h2, h3, h4⟩ := h
  unfold hwStep hwpStep
  by_cases h0 : i = 0
  · rw [if_pos h0, if_pos h0]
    refine ⟨⟨rfl, h2, h3, ?_⟩, hp⟩
    show sc.out ++ [d.getD 0 0] = (sp.smoothed ++ [d.getD 0 0]) ++ sp.predictions
    rw [h4, hp]
    simp
  · rw [if_neg h0, if_neg h0, if_neg (show ¬ n ≤ i by omega),
      if_neg (show ¬ n ≤ i by omega)]
    refine ⟨⟨?_, ?_, ?_, ?_⟩, hp⟩
    · show a * (d.getD i 0 - sc.seasonals.getD (i % L) 0) +
          (1 - a) * (sc.smooth + sc.trend) =
        a * (d.getD i 0 - sp.seasonals.getD (i % L) 0) +
          (1 - a) * (sp.smooth + sp.trend)
      rw [h1, h2, h3]
    · dsimp only
      rw [h1, h2, h3]
    · dsimp only
      rw [h1, h2, h3]
    · dsimp only
      rw [h1, h2, h3, h4, hp]
      simp

lemma hwStep_rel_ge (d : List ℚ) (a b g : ℚ) (L n : ℕ) (sc : HWState) (sp : HWPState)
    (i : ℕ) (h0 : i ≠ 0) (hi : n ≤ i) (h : hwRel sc sp) :
    hwRel (hwStep d a b g L n sc i) (hwpStep d a b g L n sp i) := by
  obtain ⟨h1, h2, h3, h4⟩ := h
  unfold hwStep hwpStep
  rw [if_neg h0, if_neg h0, if_pos hi, if_pos hi]
  refine ⟨h1, h2, h3, ?_⟩
  dsimp only
  rw [h1, h2, h3, h4]
  simp

lemma hwRun_rel_le (d : List ℚ) (a b g : ℚ) (L n : ℕ) :
    ∀ k, k ≤ n →
      hwRel (hwRun d a b g L n k) (hwpRun d a b g L n k) ∧
        (hwpRun d a b g L n k).predictions = [] := by
  intro k
  induction k with
  | zero => intro _; exact ⟨⟨rfl, rfl, rfl, rfl⟩, rfl⟩
  | succ k ih =>
    intro hk
    have ihh := ih (by omega)
    rw [hwRun_succ, hwpRun_succ]
    exact hwStep_rel_lt d a b g L n _ _ k (by omega) ihh.1 ihh.2

lemma hwRun_rel_all (d : List ℚ) (a b g : ℚ) (L n : ℕ) (hn : 1 ≤ n) (p : ℕ) :
    hwRel (hwRun d a b g L n (n + p)) (hwpRun d a b g L n (n + p)) := by
  induction p with
  | zero => exact (hwRun_rel_le d a b g L n n le_rfl).1
  | succ p ih =>
    rw [show n + (p + 1) = (n + p) + 1 from rfl, hwRun_succ, hwpRun_succ]
    exact hwStep_rel_ge d a b g L n _ _ (n + p) (by omega) (by omega) ih

lemma hwpStep_ge_fields (d : List ℚ) (a b g : ℚ) (L n : ℕ) (sp : HWPState) (i : ℕ)
    (h0 : i ≠ 0) (hi : n ≤ i) :
    (hwpStep d a b g L n sp i).smoothed = sp.smoothed ∧
    (hwpStep d a b g L n sp i).predictions =
      sp.predictions ++
        [(sp.smooth + ((i : ℚ) - (n : ℚ) + 1) * sp.trend) +
          sp.seasonals.getD (i % L) 0] := by
  unfold hwpStep
  rw [if_neg h0, if_pos hi]
  exact ⟨rfl, rfl⟩

lemma hwpRun_lengths (d : List ℚ) (a b g : ℚ) (L n : ℕ) (hn : 1 ≤ n) (p : ℕ) :
    (hwpRun d a b g L n (n + p)).smoothed.length = n ∧
    (hwpRun d a b g L n (n + p)).predictions.length = p := by
  induction p with
  | zero =>
    obtain ⟨⟨h1, h2, h3, h4⟩, hp⟩ := hwRun_rel_le d a b g L n n le_rfl
    have hlen := hwRun_out_length d a b g L n n
    constructor
    · rw [h4, hp] at hlen
      simpa using hlen
    · rw [show n + 0 = n from rfl, hp]
      rfl
  | succ p ih =>
    rw [show n + (p + 1) = (n + p) + 1 from rfl, hwpRun_succ]
    have hf := hwpStep_ge_fields d a b g L n (hwpRun d a b g L n (n + p)) (n + p)
      (by omega) (by omega)
    rw [hf.1, hf.2, List.length_append, ih.1, ih.2]
    exact ⟨rfl, rfl⟩

/-! ### C2: partitioned output refines the combined output -/

/-- C2: for every input (valid or not), concatenating the smoothed and
predictions fields of holtWintersPartitioned gives exactly the sequence
returned by holtWinters on the identical arguments. -/
theorem holtWintersPartitioned_concat_eq_holtWinters
    (data : Option (List ℚ)) (alpha beta gamma : Option ℚ) (L p : ℕ) :
    (holtWintersPartitioned data alpha beta gamma L p).smoothed ++
      (holtWintersPartitioned data alpha beta gamma L p).predictions =
    holtWinters data alpha beta gamma L p := by
  unfold holtWinters holtWintersPartitioned
  cases data with
  | none => rfl
  | some d =>
    dsimp only
    by_cases h3 : d.length < 3
    · rw [if_pos h3, if_pos h3]
      rfl
    · rw [if_neg h3, if_neg h3]
      cases alpha with
      | none => rfl
      | some a =>
        dsimp only
        by_cases ha : a < 0 ∨ 1 < a
        · rw [if_pos ha, if_pos ha]
          rfl
        · rw [if_neg ha, if_neg ha]
          cases beta with
          | none => rfl
          | some b =>
            dsimp only
            by_cases hb : b < 0 ∨ 1 < b
            · rw [if_pos hb, if_pos hb]
              rfl
            · rw [if_neg hb, if_neg hb]
              cases gamma with
              | none => rfl
              | some g =>
                dsimp only
                by_cases hg : g < 0 ∨ 1 < g
                · rw [if_pos hg, if_pos hg]
                  rfl
                · rw [if_neg hg, if_neg hg]
                  exact (hwRun_rel_all d a b g L d.length (by omega) p).2.2.2.symm

/-! ### C6: output lengths -/

/-- C6: for valid input (n = data.length at least 3, parameters in [0,1],
any numPredictions p), holtWinters returns n + p values, and
holtWintersPartitioned returns n smoothed values and p predictions. -/
theorem holtWinters_output_lengths (d : List ℚ) (a b g : ℚ) (L p : ℕ)
    (hd : 3 ≤ d.length) (hL : 1 ≤ L)
    (ha : 0 ≤ a ∧ a ≤ 1) (hb : 0 ≤ b ∧ b ≤ 1) (hg : 0 ≤ g ∧ g ≤ 1) :
    (holtWinters (some d) (some a) (some b) (some g) L p).length = d.length + p ∧
    (holtWintersPartitioned (some d) (some a) (some b) (some g) L p).smoothed.length
      = d.length ∧
    (holtWintersPartitioned (some d) (some a) (some b) (some g) L p).predictions.length
      = p := by
  have hva : ¬(a < 0 ∨ 1 < a) := by push_neg; exact ha
  have hvb : ¬(b < 0 ∨ 1 < b) := by push_neg; exact hb
  have hvg : ¬(g < 0 ∨ 1 < g) := by push_neg; exact hg
  unfold holtWinters holtWintersPartitioned
  dsimp only
  rw [if_neg (show ¬ d.length < 3 by omega), if_neg (show ¬ d.length < 3 by omega),
    if_neg hva, if_neg hva, if_neg hvb, if_neg hvb, if_neg hvg, if_neg hvg]
  exact ⟨hwRun_out_length d a b g L d.length (d.length + p),
    (hwpRun_lengths d a b g L d.length (by omega) p).1,
    (hwpRun_lengths d a b g L d.length (by omega) p).2⟩

/-! ### C8: rejection condition -/

/-- C8: holtWinters returns the empty sequence, and holtWintersPartitioned
the empty partition, exactly when data is absent, has fewer than 3 elements,
or some of alpha/beta/gamma is NaN or outside [0,1]; seasonLength and
numPredictions are never validated. -/
theorem holtWinters_empty_iff_invalid (data : Option (List ℚ))
    (alpha beta gamma : Option ℚ) (L p : ℕ) (hL : 1 ≤ L) :
    (holtWinters data alpha beta gamma L p = [] ↔ hwInvalid data alpha beta gamma) ∧
    (holtWintersPartitioned data alpha beta gamma L p = EMPTY_PARTITION ↔
      hwInvalid data alpha beta gamma) := by
  cases data with
  | none =>
    exact ⟨⟨fun _ => Or.inl rfl, fun _ => rfl⟩, ⟨fun _ => Or.inl rfl, fun _ => rfl⟩⟩
  | some d =>
    by_cases h3 : d.length < 3
    · have hinv : hwInvalid (some d) alpha beta gamma := Or.inr (Or.inl ⟨d, rfl, h3⟩)
      have e1 : holtWinters (some d) alpha beta gamma L p = [] := by
        unfold holtWinters; dsimp only; rw [if_pos h3]
      have e2 : holtWintersPartitioned (some d) alpha beta gamma L p = EMPTY_PARTITION := by
        unfold holtWintersPartitioned; dsimp only; rw [if_pos h3]
      exact ⟨⟨fun _ => hinv, fun _ => e1⟩, ⟨fun _ => hinv, fun _ => e2⟩⟩
    · cases alpha with
      | none =>
        have hinv : hwInvalid (some d) none beta gamma := Or.inr (Or.inr (Or.inl trivial))
        have e1 : holtWinters (some d) none beta gamma L p = [] := by
          unfold holtWinters; dsimp only; rw [if_neg h3]
        have e2 : holtWintersPartitioned (some d) none beta gamma L p = EMPTY_PARTITION := by
          unfold holtWintersPartitioned; dsimp only; rw [if_neg h3]
        exact ⟨⟨fun _ => hinv, fun _ => e1⟩, ⟨fun _ => hinv, fun _ => e2⟩⟩
      | some a =>
        by_cases hva : a < 0 ∨ 1 < a
        · have hinv : hwInvalid (some d) (some a) beta gamma :=
            Or.inr (Or.inr (Or.inl hva))
          have e1 : holtWinters (some d) (some a) beta gamma L p = [] := by
            unfold holtWinters; dsimp only; rw [if_neg h3, if_pos hva]
          have e2 : holtWintersPartitioned (some d) (some a) beta gamma L p
              = EMPTY_PARTITION := by
            unfold holtWintersPartitioned; dsimp only; rw [if_neg h3, if_pos hva]
          exact ⟨⟨fun _ => hinv, fun _ => e1⟩, ⟨fun _ => hinv, fun _ => e2⟩⟩
        · cases beta with
          | none =>
            have hinv : hwInvalid (some d) (some a) none gamma :=
              Or.inr (Or.inr (Or.inr (Or.inl trivial)))
            have e1 : holtWinters (some d) (some a) none gamma L p = [] := by
              unfold holtWinters; dsimp only; rw [if_neg h3, if_neg hva]
            have e2 : holtWintersPartitioned (some d) (some a) none gamma L p
                = EMPTY_PARTITION := by
              unfold holtWintersPartitioned; dsimp only; rw [if_neg h3, if_neg hva]
            exact ⟨⟨fun _ => hinv, fun _ => e1⟩, ⟨fun _ => hinv, fun _ => e2⟩⟩
          | some b =>
            by_cases hvb : b < 0 ∨ 1 < b
            · have hinv : hwInvalid (some d) (some a) (some b) gamma :=
                Or.inr (Or.inr (Or.inr (Or.inl hvb)))
              have e1 : holtWinters (some d) (some a) (some b) gamma L p = [] := by
                unfold holtWinters; dsimp only; rw [if_neg h3, if_neg hva, if_pos hvb]
              have e2 : holtWintersPartitioned (some d) (some a) (some b) gamma L p
                  = EMPTY_PARTITION := by
                unfold holtWintersPartitioned; dsimp only
                rw [if_neg h3, if_neg hva, if_pos hvb]
              exact ⟨⟨fun _ => hinv, fun _ => e1⟩, ⟨fun _ => hinv, fun _ => e2⟩⟩
            · cases gamma with
              | none =>
                have hinv : hwInvalid (some d) (some a) (some b) none :=
                  Or.inr (Or.inr (Or.inr (Or.inr trivial)))
                have e1 : holtWinters (some d) (some a) (some b) none L p = [] := by
                  unfold holtWinters; dsimp only; rw [if_neg h3, if_neg hva, if_neg hvb]
                have e2 : holtWintersPartitioned (some d) (some a) (some b) none L p
                    = EMPTY_PARTITION := by
                  unfold holtWintersPartitioned; dsimp only
                  rw [if_neg h3, if_neg hva, if_neg hvb]
                exact ⟨⟨fun _ => hinv, fun _ => e1⟩, ⟨fun _ => hinv, fun _ => e2⟩⟩
              | some g =>
                by_cases hvg : g < 0 ∨ 1 < g
                · have hinv : hwInvalid (some d) (some a) (some b) (some g) :=
                    Or.inr (Or.inr (Or.inr (Or.inr hvg)))
                  have e1 : holtWinters (some d) (some a) (some b) (some g) L p = [] := by
                    unfold holtWinters; dsimp only
                    rw [if_neg h3, if_neg hva, if_neg hvb, if_pos hvg]
                  have e2 : holtWintersPartitioned (some d) (some a) (some b) (some g) L p
                      = EMPTY_PARTITION := by
                    unfold holtWintersPartitioned; dsimp only
                    rw [if_neg h3, if_neg hva, if_neg hvb, if_pos hvg]
                  exact ⟨⟨fun _ => hinv, fun _ => e1⟩, ⟨fun _ => hinv, fun _ => e2⟩⟩
                · have hninv : ¬ hwInvalid (some d) (some a) (some b) (some g) := by
                    rintro (h | ⟨d2, hd2, hlen2⟩ | h | h | h)
                    · exact absurd h (by simp)
                    · cases hd2
                      exact h3 hlen2
                    · exact hva h
                    · exact hvb h
                    · exact hvg h
                  have hne1 : holtWinters (some d) (some a) (some b) (some g) L p ≠ [] := by
                    unfold holtWinters; dsimp only
                    rw [if_neg h3, if_neg hva, if_neg hvb, if_neg hvg]
                    have hpos :
                        0 < (hwRun d a b g L d.length (d.length + p)).out.length := by
                      rw [hwRun_out_length d a b g L d.length (d.length + p)]
                      omega
                    exact List.length_pos.mp hpos
                  have hne2 : holtWintersPartitioned (some d) (some a) (some b) (some g) L p
                      ≠ EMPTY_PARTITION := by
                    unfold holtWintersPartitioned; dsimp only
                    rw [if_neg h3, if_neg hva, if_neg hvb, if_neg hvg]
                    intro hcon
                    simp only [EMPTY_PARTITION, HWPartition.mk.injEq] at hcon
                    have hlen := (hwpRun_lengths d a b g L d.length (by omega) p).1
                    rw [hcon.1] at hlen
                    simp at hlen
                    omega
                  exact ⟨⟨fun h => absurd h hne1, fun h => absurd h hninv⟩,
                    ⟨fun h => absurd h hne2, fun h => absurd h hninv⟩⟩

/-! ### C3: the out-of-sample forecast branch -/

/-- C3: for valid input, every out-of-sample output at position i
(n le i < n + p) equals (smooth + m*trend) + seasonals[i % seasonLength]
with m = i - n + 1, where smooth, trend and the seasonals array are the
values left by the last in-sample step (the state after the first n loop
iterations) and stay unchanged through the whole forecast horizon: the
state after any k iterations with n le k le n + p coincides with it. -/
theorem holtWinters_forecast_formula (d : List ℚ) (a b g : ℚ) (L p i : ℕ)
    (hd : 3 ≤ d.length) (hL : 1 ≤ L) (hLd : 2 * L ≤ d.length)
    (ha : 0 ≤ a ∧ a ≤ 1) (hb : 0 ≤ b ∧ b ≤ 1) (hg : 0 ≤ g ∧ g ≤ 1)
    (hi : d.length ≤ i) (hip : i < d.length + p) :
    (holtWinters (some d) (some a) (some b) (some g) L p).get? i =
      some (((hwRun d a b g L d.length d.length).smooth +
        ((i : ℚ) - (d.length : ℚ) + 1) * (hwRun d a b g L d.length d.length).trend) +
        (hwRun d a b g L d.length d.length).seasonals.getD (i % L) 0) ∧
    ∀ k, d.length ≤ k → k ≤ d.length + p →
      (hwRun d a b g L d.length k).smooth = (hwRun d a b g L d.length d.length).smooth ∧
      (hwRun d a b g L d.length k).trend = (hwRun d a b g L d.length d.length).trend ∧
      (hwRun d a b g L d.length k).seasonals
        = (hwRun d a b g L d.length d.length).seasonals := by
  have hva : ¬(a < 0 ∨ 1 < a) := by push_neg; exact ha
  have hvb : ¬(b < 0 ∨ 1 < b) := by push_neg; exact hb
  have hvg : ¬(g < 0 ∨ 1 < g) := by push_neg; exact hg
  constructor
  · unfold holtWinters
    dsimp only
    rw [if_neg (show ¬ d.length < 3 by omega), if_neg hva, if_neg hvb, if_neg hvg]
    rw [hwRun_out_get_future d a b g L d.length i (d.length + p) hip]
    rw [hwRun_out_get_forecast d a b g L d.length (by omega) i hi]
    have hf := hwRun_state_frozen d a b g L d.length (by omega) i hi
    rw [hf.1, hf.2.1, hf.2.2]
  · intro k hk1 _
    exact hwRun_state_frozen d a b g L d.length (by omega) k hk1

/-- Witness for C6 at data = [1,2,3], parameters 0, seasonLength 1, p = 2. -/
theorem holtWinters_output_lengths_witness :
    (3 ≤ ([1, 2, 3] : List ℚ).length ∧ (1 : ℕ) ≤ 1 ∧ ((0 : ℚ) ≤ 0 ∧ (0 : ℚ) ≤ 1)) ∧
    ((holtWinters (some [1, 2, 3]) (some 0) (some 0) (some 0) 1 2).length
        = ([1, 2, 3] : List ℚ).length + 2 ∧
      (holtWintersPartitioned (some [1, 2, 3]) (some 0) (some 0) (some 0) 1 2).smoothed.length
        = ([1, 2, 3] : List ℚ).length ∧
      (holtWintersPartitioned (some [1, 2, 3]) (some 0) (some 0) (some 0) 1 2).predictions.length
        = 2) :=
  ⟨⟨by decide, by decide, by decide⟩,
    holtWinters_output_lengths [1, 2, 3] 0 0 0 1 2 (by decide) (by decide)
      (by decide) (by decide) (by decide)⟩

/-- Witness for C8: absent data is rejected with the empty sequence. -/
theorem holtWinters_empty_iff_invalid_witness :
    holtWinters none none none none 1 0 = [] :=
  ((holtWinters_empty_iff_invalid none none none none 1 0 (by decide)).1).mpr (Or.inl rfl)

/-- Witness for C3 at data = [1,...,6], parameters 1/2, seasonLength 2,
one prediction, read at position 6. -/
theorem holtWinters_forecast_formula_witness :
    (holtWinters (some [1, 2, 3, 4, 5, 6]) (some (1/2)) (some (1/2)) (some (1/2)) 2 1).get? 6
      = some (((hwRun [1, 2, 3, 4, 5, 6] (1/2) (1/2) (1/2) 2
            ([1, 2, 3, 4, 5, 6] : List ℚ).length
            ([1, 2, 3, 4, 5, 6] : List ℚ).length).smooth +
          (((6 : ℕ) : ℚ) - (([1, 2, 3, 4, 5, 6] : List ℚ).length : ℚ) + 1) *
            (hwRun [1, 2, 3, 4, 5, 6] (1/2) (1/2) (1/2) 2
              ([1, 2, 3, 4, 5, 6] : List ℚ).length
              ([1, 2, 3, 4, 5, 6] : List ℚ).length).trend) +
          (hwRun [1, 2, 3, 4, 5, 6] (1/2) (1/2) (1/2) 2
            ([1, 2, 3, 4, 5, 6] : List ℚ).length
            ([1, 2, 3, 4, 5, 6] : List ℚ).length).seasonals.getD (6 % 2) 0) :=
  (holtWinters_forecast_formula [1, 2, 3, 4, 5, 6] (1/2) (1/2) (1/2) 2 1 6
    (by decide) (by decide) (by decide) (by norm_num) (by norm_num) (by norm_num)
    (by decide) (by decide)).1
